import Mathlib

/-!
# Verification of the id-erase run-execution engine

A shallow embedding of the core engine of the `id-erase` orchestrator:
the retry controller (`engine/retries.py`), the retention sweeper
(`engine/artifact_cleanup.py`), the plan loader and plan schema
(`engine/plans.py`, `schemas/plan.py`), the scan scheduler
(`engine/scheduler.py`), the runner's per-task loop
(`engine/runner.py`), and the run-launch endpoint (`api.py`).

Conventions of the embedding:
* opaque JSON payloads are represented by `String`;
* Python dicts used as string-keyed records are association lists;
* wall-clock timestamps are integers (whole days for the sweeper and
  scheduler, which only do day arithmetic in the source);
* sleeps and log records are elided: they have no observable effect on
  the verified properties;
* nondeterministic fresh identifiers (`uuid.uuid4()`) are supplied as
  explicit parameters.
-/

namespace IdErase

/-- Lookup in a Python-dict-like association list (`d.get(k)`). -/
def dictGet (d : List (String × String)) (k : String) : Option String :=
  (d.find? (fun kv => kv.1 == k)).map (fun kv => kv.2)

/-! ## Retry controller — `engine/retries.py`

`with_retries(fn, policy, idempotent)` calls `fn` up to `policy.attempts`
times.  A `TaskExecutionError` carries an explicit `transient` flag; any
other exception is caught by the bare `except Exception` branch.  The
backoff sleep (`_sleep_backoff`) only delays and is elided here.

The successive outcomes of calling `fn` are modelled as a script indexed
by attempt number (1-based, as in `range(1, attempts + 1)`).
-/

/-- One outcome of calling the wrapped handler: a return value, a typed
`TaskExecutionError` with its `transient` flag and message, or any other
exception. -/
inductive CallOutcome where
  | ok (value : String)
  | taskErr (transient : Bool) (msg : String)
  | genErr (msg : String)
deriving DecidableEq, Repr

/-- Result of `with_retries`: the returned value or the propagated last
exception, together with the number of handler invocations made. -/
inductive RetryResult where
  | success (value : String) (calls : Nat)
  | failure (exc : CallOutcome) (calls : Nat)
deriving DecidableEq, Repr

/-- Number of handler invocations recorded in a `RetryResult`. -/
def RetryResult.calls : RetryResult → Nat
  | .success _ n => n
  | .failure _ n => n

/-- The loop body of `with_retries`, recursing on the number of attempts
remaining.  `attempt` is the 1-based index of the current attempt;
`remaining = 0` corresponds to the loop having exhausted `range(1,
attempts+1)` without `last_exc` being set (only reachable when
`attempts = 0`), where the source raises `RuntimeError("retry failed")`. -/
def withRetriesGo (script : Nat → CallOutcome) (idempotent : Bool)
    (attempt : Nat) : Nat → RetryResult
  | 0 => .failure (.genErr "retry failed") (attempt - 1)
  | remaining + 1 =>
    match script attempt with
    | .ok v => .success v attempt
    | .taskErr t m =>
      -- `if not idempotent or not exc.transient or attempt == policy.attempts: break`
      if !idempotent || !t || remaining == 0 then .failure (.taskErr t m) attempt
      else withRetriesGo script idempotent (attempt + 1) remaining
    | .genErr m =>
      -- bare `except Exception`: no transient flag is consulted
      if !idempotent || remaining == 0 then .failure (.genErr m) attempt
      else withRetriesGo script idempotent (attempt + 1) remaining

/-- `with_retries` from `engine/retries.py`, with the handler's successive
outcomes given by `script`. -/
def withRetries (script : Nat → CallOutcome) (attempts : Nat)
    (idempotent : Bool) : RetryResult :=
  withRetriesGo script idempotent 1 attempts

/-- An outcome is a typed transient error: a `TaskExecutionError` whose
`transient` flag is set.  This is the only classification the spec
recognises ("expressed via a typed error carrying a `transient` flag"). -/
def isTransientErr : CallOutcome → Bool
  | .taskErr t _ => t
  | _ => false

/-- An outcome that `with_retries` is willing to retry: a transient typed
error, or any untyped exception. -/
def retryableOutcome : CallOutcome → Bool
  | .ok _ => false
  | .taskErr t _ => t
  | .genErr _ => true

/-- Script used to exhibit a retry after an untyped, unclassified error. -/
def genErrScript : Nat → CallOutcome
  | 1 => .genErr "boom"
  | _ => .ok "done"

theorem withRetriesGo_calls_le (script : Nat → CallOutcome) (idem : Bool) :
    ∀ remaining attempt,
      (withRetriesGo script idem attempt remaining).calls ≤ attempt + remaining - 1 := by
  intro remaining
  induction remaining with
  | zero => intro attempt; simp only [withRetriesGo, RetryResult.calls]; omega
  | succ r ih =>
    intro attempt
    unfold withRetriesGo
    cases h : script attempt with
    | ok v => simp only [RetryResult.calls]; omega
    | taskErr t m =>
      by_cases hb : (!idem || !t || r == 0) = true
      · simp [hb, RetryResult.calls]
      · simp [hb]
        have := ih (attempt + 1)
        omega
    | genErr m =>
      by_cases hb : (!idem || r == 0) = true
      · simp [hb, RetryResult.calls]
      · simp [hb]
        have := ih (attempt + 1)
        omega

theorem withRetriesGo_retry_only (script : Nat → CallOutcome) (idem : Bool) :
    ∀ remaining attempt i, attempt ≤ i →
      i < (withRetriesGo script idem attempt remaining).calls →
      idem = true ∧ retryableOutcome (script i) = true := by
  intro remaining
  induction remaining with
  | zero =>
    intro attempt i hai hlt
    simp [withRetriesGo, RetryResult.calls] at hlt
    omega
  | succ r ih =>
    intro attempt i hai hlt
    unfold withRetriesGo at hlt
    cases h : script attempt with
    | ok v =>
      simp [h, RetryResult.calls] at hlt
      omega
    | taskErr t m =>
      by_cases hb : (!idem || !t || r == 0) = true
      · simp [h, hb, RetryResult.calls] at hlt
        all_goals omega
      · simp only [h] at hlt
        simp [hb] at hlt
        simp at hb
        rcases Nat.eq_or_lt_of_le hai with heq | hgt
        · subst heq
          exact ⟨hb.1.1, by simp [retryableOutcome, h, hb.1.2]⟩
        · exact ih (attempt + 1) i hgt hlt
    | genErr m =>
      by_cases hb : (!idem || r == 0) = true
      · simp [h, hb, RetryResult.calls] at hlt
        all_goals omega
      · simp only [h] at hlt
        simp [hb] at hlt
        simp at hb
        rcases Nat.eq_or_lt_of_le hai with heq | hgt
        · subst heq
          exact ⟨hb.1, by simp [retryableOutcome, h]⟩
        · exact ih (attempt + 1) i hgt hlt

/-- **C3 (counterexample).**  The claim says a retry happens only when the
error is transient.  Here the first call raises an untyped exception —
which carries no `transient` flag, so it is not a transient error in the
sense of the spec — yet `with_retries` (idempotent task, 3 attempts)
invokes the handler a second time and returns its success: two calls were
made although the first call's error was not transient. -/
theorem c3_retry_not_only_transient :
    isTransientErr (genErrScript 1) = false ∧
    withRetries genErrScript 3 true = .success "done" 2 := by
  constructor
  · rfl
  · rfl

/-- **C3 (amended).**  For every handler invocation under the retry
controller, a retry happens only when the task is idempotent AND attempts
remain AND the error is retried-eligible — a typed error with the
`transient` flag set, or an untyped exception (the bare `except Exception`
branch retries untyped errors without consulting any transient flag).  A
typed non-transient error, a non-idempotent task, or the last attempt
propagates the last exception without any further handler call. -/
theorem c3_retry_amended (script : Nat → CallOutcome) (attempts : Nat)
    (idempotent : Bool) (i : Nat) (h1 : 1 ≤ i)
    (hlt : i < (withRetries script attempts idempotent).calls) :
    idempotent = true ∧ i < attempts ∧ retryableOutcome (script i) = true := by
  have hmain := withRetriesGo_retry_only script idempotent attempts 1 i h1 hlt
  have hcalls := withRetriesGo_calls_le script idempotent attempts 1
  unfold withRetries at hlt
  exact ⟨hmain.1, by omega, hmain.2⟩

/-- Witness for `c3_retry_amended` at a concrete script: the retried first
call of `genErrScript` under 3 idempotent attempts satisfies all three
conditions of the amended claim. -/
theorem c3_retry_amended_witness :
    (1 ≤ 1 ∧ 1 < (withRetries genErrScript 3 true).calls) ∧
    (true = true ∧ 1 < 3 ∧ retryableOutcome (genErrScript 1) = true) := by
  refine ⟨⟨le_refl 1, by decide⟩, ?_⟩
  exact c3_retry_amended genErrScript 3 true 1 (le_refl 1) (by decide)

/-! ## Retention sweeper — `engine/artifact_cleanup.py`

`ArtifactCleanup.cleanup_once` iterates over every artifact row, computes
`age_days = (now - created_at).days`, decides deletion per kind and
retention, deletes the file from disk (tolerating failures) and deletes
the DB row.  Timestamps are modelled in whole days, so `age_days` is
`now - created_at`.
-/

/-- A row of the `run_artifacts` table, restricted to the fields the
sweeper reads. -/
structure RunArtifact where
  artifact_id : String
  kind : String
  uri : String
  created_at : Int
deriving DecidableEq, Repr

/-- The retention knobs of `ArtifactCleanup.__init__` (defaults as in the
source). -/
structure CleanupConfig where
  html_retention_days : Int := 7
  screenshot_retention_days : Int := 30
  confirmation_retention_days : Int := -1
deriving Repr

/-- The `should_delete` decision of `cleanup_once`: the `if/elif` chain
over the artifact's kind, each arm guarded by a non-negative retention. -/
def shouldDeleteArtifact (cfg : CleanupConfig) (kind : String) (age_days : Int) : Bool :=
  if kind = "html" ∧ 0 ≤ cfg.html_retention_days then
    decide (cfg.html_retention_days < age_days)
  else if kind = "screenshot" ∧ 0 ≤ cfg.screenshot_retention_days then
    decide (cfg.screenshot_retention_days < age_days)
  else if kind = "confirmation" ∨ kind = "receipt" then
    if 0 ≤ cfg.confirmation_retention_days then
      decide (cfg.confirmation_retention_days < age_days)
    else false
  else false

/-- The artifact files on disk: the paths present, and the paths whose
removal raises `OSError`. -/
structure FileSystem where
  present : List String
  osError : List String
deriving DecidableEq, Repr

/-- `ArtifactCleanup._delete_file`: remove the file if it exists, return
whether a file was actually deleted; an `OSError` is logged and yields
`False`. -/
def deleteFile (fs : FileSystem) (uri : String) : Bool × FileSystem :=
  if uri ∈ fs.present then
    if uri ∈ fs.osError then (false, fs)
    else (true, { fs with present := fs.present.erase uri })
  else (false, fs)

/-- State threaded through one cleanup pass: surviving DB rows, the file
system, and the `total_files` counter of actually-deleted files. -/
structure CleanupOutcome where
  rows : List RunArtifact
  fs : FileSystem
  total_files : Nat
deriving DecidableEq, Repr

/-- The body of `cleanup_once`'s `for artifact in artifacts` loop.  When
`should_delete` holds, the file is deleted (failure tolerated) and the DB
row is deleted; otherwise the row survives. -/
def cleanupStep (cfg : CleanupConfig) (now : Int)
    (acc : CleanupOutcome) (artifact : RunArtifact) : CleanupOutcome :=
  let age_days := now - artifact.created_at
  if shouldDeleteArtifact cfg artifact.kind age_days then
    let res := deleteFile acc.fs artifact.uri
    { rows := acc.rows, fs := res.2,
      total_files := acc.total_files + (if res.1 then 1 else 0) }
  else
    { acc with rows := acc.rows ++ [artifact] }

/-- `ArtifactCleanup.cleanup_once`: one pass over all artifact rows. -/
def cleanupOnce (cfg : CleanupConfig) (now : Int)
    (artifacts : List RunArtifact) (fs : FileSystem) : CleanupOutcome :=
  artifacts.foldl (cleanupStep cfg now) { rows := [], fs := fs, total_files := 0 }

theorem mem_cleanupOnce_fold (cfg : CleanupConfig) (now : Int) (a : RunArtifact) :
    ∀ (artifacts : List RunArtifact) (acc : CleanupOutcome),
      a ∈ (artifacts.foldl (cleanupStep cfg now) acc).rows ↔
        a ∈ acc.rows ∨ (a ∈ artifacts ∧
          shouldDeleteArtifact cfg a.kind (now - a.created_at) = false) := by
  intro artifacts
  induction artifacts with
  | nil => intro acc; simp
  | cons x xs ih =>
    intro acc
    rw [List.foldl_cons, ih]
    unfold cleanupStep
    by_cases hx : shouldDeleteArtifact cfg x.kind (now - x.created_at) = true
    · simp only [hx, if_true]
      by_cases hax : a = x
      · subst hax
        simp [hx]
      · simp [hax]
    · simp only [Bool.not_eq_true] at hx
      simp only [hx, Bool.false_eq_true, if_false]
      by_cases hax : a = x
      · subst hax
        simp [hx]
      · simp [hax]

theorem shouldDeleteArtifact_iff (cfg : CleanupConfig) (kind : String) (age : Int) :
    shouldDeleteArtifact cfg kind age = true ↔
      ((kind = "html" ∧ 0 ≤ cfg.html_retention_days ∧
          age > cfg.html_retention_days) ∨
       (kind = "screenshot" ∧ 0 ≤ cfg.screenshot_retention_days ∧
          age > cfg.screenshot_retention_days) ∨
       ((kind = "confirmation" ∨ kind = "receipt") ∧
          0 ≤ cfg.confirmation_retention_days ∧
          age > cfg.confirmation_retention_days)) := by
  unfold shouldDeleteArtifact
  split_ifs with h1 h2 h3 h4
  · obtain ⟨hk, hr⟩ := h1
    simp only [decide_eq_true_eq]
    constructor
    · intro h; exact Or.inl ⟨hk, hr, by omega⟩
    · rintro (⟨_, _, h⟩ | ⟨hk2, _, _⟩ | ⟨hk2, _, _⟩)
      · omega
      · rw [hk] at hk2; exact absurd hk2 (by decide)
      · rcases hk2 with hk2 | hk2 <;> rw [hk] at hk2 <;> exact absurd hk2 (by decide)
  · obtain ⟨hk, hr⟩ := h2
    simp only [decide_eq_true_eq]
    constructor
    · intro h; exact Or.inr (Or.inl ⟨hk, hr, by omega⟩)
    · rintro (⟨hk2, hr2, _⟩ | ⟨_, _, h⟩ | ⟨hk2, _, _⟩)
      · exact absurd ⟨hk2, hr2⟩ h1
      · omega
      · rcases hk2 with hk2 | hk2 <;> rw [hk] at hk2 <;> exact absurd hk2 (by decide)
  · simp only [decide_eq_true_eq]
    constructor
    · intro h; exact Or.inr (Or.inr ⟨h3, h4, by omega⟩)
    · rintro (⟨hk2, hr2, _⟩ | ⟨hk2, hr2, _⟩ | ⟨_, _, h⟩)
      · exact absurd ⟨hk2, hr2⟩ h1
      · exact absurd ⟨hk2, hr2⟩ h2
      · omega
  · simp only [Bool.false_eq_true, false_iff]
    rintro (⟨hk2, hr2, _⟩ | ⟨hk2, hr2, _⟩ | ⟨_, hr2, _⟩)
    · exact h1 ⟨hk2, hr2⟩
    · exact h2 ⟨hk2, hr2⟩
    · exact h4 hr2
  · simp only [Bool.false_eq_true, false_iff]
    rintro (⟨hk2, hr2, _⟩ | ⟨hk2, hr2, _⟩ | ⟨hk2, _, _⟩)
    · exact h1 ⟨hk2, hr2⟩
    · exact h2 ⟨hk2, hr2⟩
    · exact h3 hk2

/-- **C6.**  A single pass of the retention sweeper deletes an artifact's
row iff its kind/age fall under one of the three retention rules, each
applicable only when the corresponding retention is non-negative; an
artifact of any other kind, or whose kind's retention is negative, always
survives the pass. -/
theorem c6_retention_selection (cfg : CleanupConfig) (now : Int)
    (artifacts : List RunArtifact) (fs : FileSystem) (a : RunArtifact)
    (ha : a ∈ artifacts) :
    a ∉ (cleanupOnce cfg now artifacts fs).rows ↔
      ((a.kind = "html" ∧ 0 ≤ cfg.html_retention_days ∧
          now - a.created_at > cfg.html_retention_days) ∨
       (a.kind = "screenshot" ∧ 0 ≤ cfg.screenshot_retention_days ∧
          now - a.created_at > cfg.screenshot_retention_days) ∨
       ((a.kind = "confirmation" ∨ a.kind = "receipt") ∧
          0 ≤ cfg.confirmation_retention_days ∧
          now - a.created_at > cfg.confirmation_retention_days)) := by
  have hiff := shouldDeleteArtifact_iff cfg a.kind (now - a.created_at)
  unfold cleanupOnce
  rw [mem_cleanupOnce_fold, ← hiff]
  simp [ha]

/-- Witness for `c6_retention_selection`: an `html` artifact aged 10 days
against the default 7-day retention is deleted by the pass. -/
theorem c6_retention_selection_witness :
    (RunArtifact.mk "a1" "html" "runs/a1.json" 0 ∈
      [RunArtifact.mk "a1" "html" "runs/a1.json" 0]) ∧
    (RunArtifact.mk "a1" "html" "runs/a1.json" 0 ∉
        (cleanupOnce {} 10 [RunArtifact.mk "a1" "html" "runs/a1.json" 0]
          (FileSystem.mk ["runs/a1.json"] [])).rows ↔
      (("html" = "html" ∧ (0 : Int) ≤ 7 ∧ (10 : Int) - 0 > 7) ∨
       ("html" = "screenshot" ∧ (0 : Int) ≤ 30 ∧ (10 : Int) - 0 > 30) ∨
       (("html" = "confirmation" ∨ "html" = "receipt") ∧
          (0 : Int) ≤ -1 ∧ (10 : Int) - 0 > -1))) := by
  refine ⟨by decide, ?_⟩
  exact c6_retention_selection {} 10 [RunArtifact.mk "a1" "html" "runs/a1.json" 0]
    (FileSystem.mk ["runs/a1.json"] []) (RunArtifact.mk "a1" "html" "runs/a1.json" 0)
    (by decide)

/-- **C7 (counterexample).**  An expired `html` artifact whose file is
missing on disk: the file deletion does not succeed (`total_files = 0`,
the file system is untouched), yet the sweeper still removes the DB row —
the row is not kept when the file is not removed. -/
theorem c7_row_deleted_despite_file_failure :
    (cleanupOnce {} 10 [RunArtifact.mk "a1" "html" "runs/a1.json" 0]
        (FileSystem.mk [] [])) =
      CleanupOutcome.mk [] (FileSystem.mk [] []) 0 := by
  decide

/-- **C7 (amended).**  When the sweeper decides to delete an expired
artifact, the DB row is removed unconditionally — whether or not the file
deletion succeeds (missing file or `OSError`); a failed file deletion is
only logged and leaves the `total_files` counter unincremented. -/
theorem c7_row_removed_regardless_of_file (cfg : CleanupConfig) (now : Int)
    (artifacts : List RunArtifact) (fs : FileSystem) (a : RunArtifact)
    (_ha : a ∈ artifacts)
    (hdel : shouldDeleteArtifact cfg a.kind (now - a.created_at) = true) :
    a ∉ (cleanupOnce cfg now artifacts fs).rows := by
  unfold cleanupOnce
  rw [mem_cleanupOnce_fold]
  simp [hdel]

/-- Witness for `c7_row_removed_regardless_of_file`: an expired
screenshot artifact whose file removal raises `OSError` still loses its
DB row. -/
theorem c7_row_removed_regardless_of_file_witness :
    (RunArtifact.mk "a2" "screenshot" "runs/a2.png" 0 ∈
        [RunArtifact.mk "a2" "screenshot" "runs/a2.png" 0] ∧
      shouldDeleteArtifact {} "screenshot" (40 - 0) = true) ∧
    RunArtifact.mk "a2" "screenshot" "runs/a2.png" 0 ∉
      (cleanupOnce {} 40 [RunArtifact.mk "a2" "screenshot" "runs/a2.png" 0]
        (FileSystem.mk ["runs/a2.png"] ["runs/a2.png"])).rows := by
  refine ⟨⟨by decide, by decide⟩, ?_⟩
  exact c7_row_removed_regardless_of_file {} 40
    [RunArtifact.mk "a2" "screenshot" "runs/a2.png" 0]
    (FileSystem.mk ["runs/a2.png"] ["runs/a2.png"])
    (RunArtifact.mk "a2" "screenshot" "runs/a2.png" 0) (by decide) (by decide)

/-! ## Plan schema and loader — `schemas/plan.py`, `engine/plans.py`

`load_plan` resolves the plan file (direct, `brokers/`, stripped
`broker_` prefix), parses the YAML and runs
`ErasurePlan.model_validate(raw)`.  The pydantic constraints of
`PlanTask` / `PlanTarget` / `ErasurePlan` are transcribed below.  File
resolution and YAML parsing are modelled by the caller supplying the
parsed document (or `none` on a resolution/parse miss). -/

/-- The closed `TaskType` enumeration of `schemas/plan.py`. -/
def TASK_TYPES : List String :=
  ["http.request", "scrape.static", "scrape.rendered", "form.submit",
   "email.send", "email.check", "email.click_verify", "match.identity",
   "broker.update_status", "queue.human_action", "captcha.solve",
   "wait.delay", "llm.json", "legal.generate_request",
   "discover.search_engine"]

/-- A task definition (`PlanTask`), with the pydantic defaults.  The
`approval`, `input` and `output` dicts are string-keyed association
lists. -/
structure PlanTask where
  id : String
  name : String
  type : String
  depends_on : List String := []
  idempotent : Bool := true
  max_attempts : Nat := 3
  timeout_ms : Nat := 120000
  requires_approval : Bool := false
  approval : Option (List (String × String)) := none
  input : List (String × String) := []
  output : Option (List (String × String)) := none
deriving DecidableEq, Repr

/-- A named endpoint (`PlanTarget`). -/
structure PlanTarget where
  target_id : String
  kind : String
  base_url : Option String := none
  notes : Option String := none
deriving DecidableEq, Repr

/-- A parsed plan document (`ErasurePlan`); `params_schema` is an opaque
JSON blob. -/
structure ErasurePlan where
  plan_id : String
  version : String
  description : Option String := none
  owner : Option String := none
  labels : List String := []
  targets : List PlanTarget
  params_schema : Option String := none
  tasks : List PlanTask
deriving DecidableEq, Repr

/-- The `pattern=r"^[a-zA-Z0-9_-]+$"` constraint on a task id. -/
def validTaskId (s : String) : Bool :=
  s.length > 0 && s.toList.all (fun c => c.isAlphanum || c == '_' || c == '-')

/-- Split a character list on `'.'` (the semantics of splitting on the
literal dots of the `N.N.N` version pattern). -/
def splitDots : List Char → List (List Char)
  | [] => [[]]
  | c :: rest =>
    if c = '.' then [] :: splitDots rest
    else
      match splitDots rest with
      | [] => [[c]]
      | g :: gs => (c :: g) :: gs

/-- The `pattern=r"^[0-9]+\.[0-9]+\.[0-9]+$"` constraint on `version`. -/
def validVersion (s : String) : Bool :=
  match splitDots s.toList with
  | [a, b, c] =>
    !a.isEmpty && a.all Char.isDigit &&
    !b.isEmpty && b.all Char.isDigit &&
    !c.isEmpty && c.all Char.isDigit
  | _ => false

/-- The field constraints pydantic checks on one `PlanTask`.  Note there
is no constraint at all on `depends_on`. -/
def validPlanTask (t : PlanTask) : Bool :=
  validTaskId t.id && decide (1 ≤ t.name.length) &&
  TASK_TYPES.contains t.type &&
  decide (1 ≤ t.max_attempts) && decide (t.max_attempts ≤ 10) &&
  decide (1000 ≤ t.timeout_ms) && decide (t.timeout_ms ≤ 3600000)

/-- The field constraints on one `PlanTarget`. -/
def validPlanTarget (t : PlanTarget) : Bool :=
  decide (1 ≤ t.target_id.length) &&
  ["website", "api", "email"].contains t.kind

/-- `ErasurePlan.model_validate`: per-field constraints only; no
cross-task validation of any kind is performed. -/
def validErasurePlan (p : ErasurePlan) : Bool :=
  decide (1 ≤ p.plan_id.length) && validVersion p.version &&
  p.targets.all validPlanTarget && p.tasks.all validPlanTask

/-- `load_plan`, with file resolution and YAML parsing abstracted into
the optional parsed document: a resolution or parse miss raises
(`PLAN_NOT_FOUND` / invalid file), and otherwise the document is
validated. -/
def loadPlan (doc : Option ErasurePlan) : Except String ErasurePlan :=
  match doc with
  | none => .error "PLAN_NOT_FOUND"
  | some p => if validErasurePlan p then .ok p else .error "PLAN_INVALID"

/-- The ids of a plan's tasks (`task_ids = {t.id for t in plan.tasks}`). -/
def planTaskIds (p : ErasurePlan) : List String :=
  p.tasks.map (fun t => t.id)

/-- The dangling-dependency issues computed by the
`POST /v1/plans/{id}/check` endpoint (`api.py`): one `(task, dep)` pair
per `depends_on` entry that names no task of the plan. -/
def planDepIssues (p : ErasurePlan) : List (String × String) :=
  p.tasks.flatMap (fun t =>
    (t.depends_on.filter (fun d => decide (d ∉ planTaskIds p))).map
      (fun d => (t.id, d)))

/-- The `health` field of the plan-check report: `healthy` iff no
dangling dependencies were found. -/
def planHealth (p : ErasurePlan) : String :=
  if planDepIssues p = [] then "healthy" else "degraded"

/-- Rewriting every task's `depends_on` list. -/
def withDeps (p : ErasurePlan) (f : PlanTask → List String) : ErasurePlan :=
  { p with tasks := p.tasks.map (fun t => { t with depends_on := f t }) }

/-- A well-formed plan whose single task depends on a task id that does
not exist in the plan. -/
def danglingPlan : ErasurePlan :=
  { plan_id := "demo", version := "1.0.0",
    targets := [{ target_id := "site", kind := "website" }],
    tasks := [{ id := "fetch", name := "Fetch page", type := "http.request",
                depends_on := ["missing"] }] }

/-- **C8 (counterexample).**  A plan containing a `depends_on` entry that
names no task of the plan loads successfully: `load_plan` performs no
cross-task dependency validation, so the load does not fail before any
task executes. -/
theorem c8_dangling_dep_loads :
    loadPlan (some danglingPlan) = .ok danglingPlan ∧
    "missing" ∈ danglingPlan.tasks.flatMap (fun t => t.depends_on) ∧
    "missing" ∉ planTaskIds danglingPlan := by
  refine ⟨?_, by decide, by decide⟩
  have hv : validErasurePlan danglingPlan = true := by decide
  simp [loadPlan, hv]

/-- **C8 (amended).**  Plan loading does not check `depends_on` at all:
validation is insensitive to arbitrary rewriting of every task's
`depends_on` list.  The dangling-reference check lives solely in the
plan health-check endpoint, whose report is `healthy` exactly when every
`depends_on` entry of every task references an existing task of the same
plan (a dangling reference otherwise surfaces only at execution time,
through the runner's dependency check). -/
theorem c8_dep_check_not_at_load (p : ErasurePlan) (f : PlanTask → List String) :
    validErasurePlan (withDeps p f) = validErasurePlan p ∧
    (planHealth p = "healthy" ↔
      ∀ t ∈ p.tasks, ∀ d ∈ t.depends_on, d ∈ planTaskIds p) := by
  constructor
  · unfold validErasurePlan withDeps
    simp only [List.all_map]
    rfl
  · unfold planHealth
    constructor
    · intro h t ht d hd
      by_contra hdiss
      have hne : (t.id, d) ∈ planDepIssues p := by
        unfold planDepIssues
        rw [List.mem_flatMap]
        exact ⟨t, ht, by
          rw [List.mem_map]
          exact ⟨d, by rw [List.mem_filter]; exact ⟨hd, by simpa using hdiss⟩, rfl⟩⟩
      by_cases hempty : planDepIssues p = []
      · rw [hempty] at hne; exact absurd hne (List.not_mem_nil _)
      · rw [if_neg hempty] at h; exact absurd h (by decide)
    · intro h
      have hempty : planDepIssues p = [] := by
        rw [List.eq_nil_iff_forall_not_mem]
        intro x hx
        unfold planDepIssues at hx
        rw [List.mem_flatMap] at hx
        obtain ⟨t, ht, hx⟩ := hx
        rw [List.mem_map] at hx
        obtain ⟨d, hd, _⟩ := hx
        rw [List.mem_filter] at hd
        have := h t ht d hd.1
        simpa [this] using hd.2
      rw [if_pos hempty]

/-! ## Scan scheduler — `engine/scheduler.py`

One tick of `ErasureScheduler._poll_loop`: query the due enabled
schedules ordered by `next_run_at`, deduplicate by broker id, call the
run-creation hook for each surviving job, and advance the schedule via
`mark_started` — except that a hook exception is logged and `continue`s
without advancing.  Timestamps are integer days; the fresh
`uuid.uuid4()` suffix drawn for a job without a run id is supplied by an
explicit `uuid` function. -/

/-- A row of the `scan_schedule` table. -/
structure ScanSchedule where
  schedule_id : String
  broker_id : String
  profile_id : String
  scan_type : String
  next_run_at : Int
  last_run_id : Option String := none
  last_run_at : Option Int := none
  interval_days : Int
  enabled : Bool
  created_at : Int := 0
deriving DecidableEq, Repr

/-- The `ScanJob` dataclass built by `get_due_jobs`. -/
structure ScanJob where
  schedule_id : String
  broker_id : String
  profile_id : String
  scan_type : String
  plan_id : String
  next_run_at : Int
  interval_days : Int
deriving DecidableEq, Repr

/-- Building one `ScanJob` from a schedule row
(`plan_id = f"broker_{r.broker_id}"`). -/
def scheduleToJob (r : ScanSchedule) : ScanJob :=
  { schedule_id := r.schedule_id, broker_id := r.broker_id,
    profile_id := r.profile_id, scan_type := r.scan_type,
    plan_id := "broker_" ++ r.broker_id,
    next_run_at := r.next_run_at, interval_days := r.interval_days }

/-- Insertion into a list ascending by `next_run_at`. -/
def insertByNext (j : ScanJob) : List ScanJob → List ScanJob
  | [] => [j]
  | k :: rest =>
    if j.next_run_at ≤ k.next_run_at then j :: k :: rest
    else k :: insertByNext j rest

/-- `ORDER BY next_run_at ASC` of the due-jobs query. -/
def sortByNext : List ScanJob → List ScanJob
  | [] => []
  | j :: rest => insertByNext j (sortByNext rest)

/-- `get_due_jobs`: enabled schedules with `next_run_at <= now`, ordered
by `next_run_at` ascending, turned into jobs. -/
def getDueJobs (now : Int) (schedules : List ScanSchedule) : List ScanJob :=
  sortByNext
    ((schedules.filter (fun r => r.enabled && decide (r.next_run_at ≤ now))).map
      scheduleToJob)

/-- The per-tick broker deduplication (`seen_brokers`): at most one job
per broker id, keeping the first in order. -/
def dedupByBroker (seen : List String) : List ScanJob → List ScanJob
  | [] => []
  | j :: rest =>
    if j.broker_id ∈ seen then dedupByBroker seen rest
    else j :: dedupByBroker (j.broker_id :: seen) rest

/-- Outcome of calling the run-creation hook (`create_run_fn`): a run id,
a falsy result, or a raised exception. -/
inductive HookResult where
  | created (run_id : String)
  | noRun
  | raised (msg : String)
deriving DecidableEq, Repr

/-- The row update performed by `mark_started`. -/
def advanceSchedule (now : Int) (run_id : String) (r : ScanSchedule) : ScanSchedule :=
  { r with last_run_id := some run_id, last_run_at := some now,
           next_run_at := now + r.interval_days }

/-- `mark_started(schedule_id, run_id)`: advance the (unique) schedule
with that id; a missing id is logged and leaves the store unchanged. -/
def markStarted (now : Int) (schedules : List ScanSchedule)
    (schedule_id run_id : String) : List ScanSchedule :=
  schedules.map (fun r =>
    if r.schedule_id = schedule_id then advanceSchedule now run_id r else r)

/-- Processing of one surviving job inside the tick loop: a raised hook is
logged and skips the advance; otherwise `mark_started` runs with the run
id or the synthetic `skipped-<uuid4>` sentinel. -/
def stepJob (hook : ScanJob → HookResult) (uuid : ScanJob → String) (now : Int)
    (schedules : List ScanSchedule) (j : ScanJob) : List ScanSchedule :=
  match hook j with
  | .raised _ => schedules
  | .created rid => markStarted now schedules j.schedule_id rid
  | .noRun => markStarted now schedules j.schedule_id ("skipped-" ++ uuid j)

/-- One tick of `_poll_loop`. -/
def schedulerTick (hook : ScanJob → HookResult) (uuid : ScanJob → String)
    (now : Int) (schedules : List ScanSchedule) : List ScanSchedule :=
  (dedupByBroker [] (getDueJobs now schedules)).foldl
    (stepJob hook uuid now) schedules

/-- `one_or_none` lookup of a schedule row by primary key. -/
def findSchedule (schedules : List ScanSchedule) (sid : String) : Option ScanSchedule :=
  schedules.find? (fun r => r.schedule_id == sid)

theorem insertByNext_perm (j : ScanJob) (l : List ScanJob) :
    (insertByNext j l).Perm (j :: l) := by
  induction l with
  | nil => simp [insertByNext]
  | cons k rest ih =>
    unfold insertByNext
    by_cases h : j.next_run_at ≤ k.next_run_at
    · simp [h]
    · rw [if_neg h]
      exact (ih.cons k).trans (List.Perm.swap j k rest)

theorem sortByNext_perm (l : List ScanJob) : (sortByNext l).Perm l := by
  induction l with
  | nil => simp [sortByNext]
  | cons j rest ih =>
    unfold sortByNext
    exact (insertByNext_perm j (sortByNext rest)).trans (ih.cons j)

theorem dedupByBroker_sublist (l : List ScanJob) :
    ∀ seen, (dedupByBroker seen l).Sublist l := by
  induction l with
  | nil => intro seen; simp [dedupByBroker]
  | cons j rest ih =>
    intro seen
    unfold dedupByBroker
    by_cases h : j.broker_id ∈ seen
    · rw [if_pos h]
      exact (ih seen).trans (List.sublist_cons_self j rest)
    · rw [if_neg h]
      exact (ih (j.broker_id :: seen)).cons₂ j

theorem findSchedule_markStarted (now : Int) (schedules : List ScanSchedule)
    (sid rid sid' : String) :
    findSchedule (markStarted now schedules sid rid) sid' =
      (findSchedule schedules sid').map
        (fun r => if r.schedule_id = sid then advanceSchedule now rid r else r) := by
  unfold findSchedule markStarted
  rw [List.find?_map]
  have hp : ((fun r : ScanSchedule => r.schedule_id == sid') ∘
      (fun r => if r.schedule_id = sid then advanceSchedule now rid r else r)) =
      (fun r : ScanSchedule => r.schedule_id == sid') := by
    funext r
    by_cases h : r.schedule_id = sid
    · simp [Function.comp, h, advanceSchedule]
    · simp [Function.comp, h]
  rw [hp]

theorem findSchedule_untouched (hook : ScanJob → HookResult)
    (uuid : ScanJob → String) (now : Int) (sid : String) :
    ∀ (jobs : List ScanJob) (schedules : List ScanSchedule),
      (∀ k ∈ jobs, k.schedule_id ≠ sid) →
      findSchedule (jobs.foldl (stepJob hook uuid now) schedules) sid =
        findSchedule schedules sid := by
  intro jobs
  induction jobs with
  | nil => intro schedules _; simp
  | cons k rest ih =>
    intro schedules hk
    rw [List.foldl_cons, ih _ (fun x hx => hk x (List.mem_cons_of_mem k hx))]
    unfold stepJob
    cases hook k with
    | raised m => rfl
    | created rid =>
      rw [findSchedule_markStarted]
      cases hfind : findSchedule schedules sid with
      | none => rfl
      | some r =>
        have hr : r.schedule_id = sid := by
          have := List.find?_some hfind
          simpa using this
        have hkk := hk k (List.mem_cons_self k rest)
        simp [hr]
        intro hcontra
        exact absurd hcontra.symm hkk
    | noRun =>
      rw [findSchedule_markStarted]
      cases hfind : findSchedule schedules sid with
      | none => rfl
      | some r =>
        have hr : r.schedule_id = sid := by
          have := List.find?_some hfind
          simpa using this
        have hkk := hk k (List.mem_cons_self k rest)
        simp [hr]
        intro hcontra
        exact absurd hcontra.symm hkk

theorem findSchedule_of_nodup (r : ScanSchedule) :
    ∀ (schedules : List ScanSchedule),
      (schedules.map (fun x => x.schedule_id)).Nodup → r ∈ schedules →
      findSchedule schedules r.schedule_id = some r := by
  intro schedules
  induction schedules with
  | nil => intro _ h; exact absurd h (List.not_mem_nil r)
  | cons x rest ih =>
    intro hnodup hmem
    rw [List.map_cons, List.nodup_cons] at hnodup
    rcases List.mem_cons.mp hmem with heq | hmem'
    · subst heq
      unfold findSchedule
      simp
    · have hne : x.schedule_id ≠ r.schedule_id := by
        intro hcontra
        exact hnodup.1 (hcontra ▸ List.mem_map_of_mem (fun s => s.schedule_id) hmem')
      have hbeq : ¬ ((x.schedule_id == r.schedule_id) = true) := by
        simpa using hne
      unfold findSchedule
      rw [show List.find? (fun s : ScanSchedule => s.schedule_id == r.schedule_id)
            (x :: rest) =
          List.find? (fun s : ScanSchedule => s.schedule_id == r.schedule_id) rest from
        List.find?_cons_of_neg rest hbeq]
      exact ih hnodup.2 hmem'

/-- **C9 (counterexample).**  A due enabled schedule whose run-creation
hook raises is `continue`d over without `mark_started`: after the tick it
is unchanged — still due, never advanced — contradicting the claim that
every surviving due schedule is advanced before the next tick. -/
theorem c9_raising_hook_leaves_schedule_due :
    (ScanSchedule.mk "s1" "spokeo" "p1" "discovery" 0 none none 30 true 0).enabled = true ∧
    (ScanSchedule.mk "s1" "spokeo" "p1" "discovery" 0 none none 30 true 0).next_run_at ≤ 5 ∧
    schedulerTick (fun _ => .raised "db down") (fun _ => "u0") 5
        [ScanSchedule.mk "s1" "spokeo" "p1" "discovery" 0 none none 30 true 0] =
      [ScanSchedule.mk "s1" "spokeo" "p1" "discovery" 0 none none 30 true 0] := by
  refine ⟨rfl, by decide, ?_⟩
  rfl

/-- **C9 (amended).**  In a scheduler tick over schedules with distinct
primary keys, every due enabled schedule that survives per-broker
deduplication **and whose hook invocation does not raise** is advanced
before the next tick: `last_run_at = now`, `next_run_at = now +
interval_days`, and `last_run_id` is the hook's run id, or the synthetic
`skipped-<uuid>` sentinel when the hook returned no run id.  (A schedule
whose hook raises is left unadvanced and is retried at a later tick.) -/
theorem c9_survivor_advanced_unless_raise (hook : ScanJob → HookResult)
    (uuid : ScanJob → String) (now : Int) (schedules : List ScanSchedule)
    (hnodup : (schedules.map (fun r => r.schedule_id)).Nodup)
    (j : ScanJob) (hj : j ∈ dedupByBroker [] (getDueJobs now schedules))
    (hnoraise : ∀ msg, hook j ≠ .raised msg) :
    ∃ r ∈ schedules, scheduleToJob r = j ∧ r.enabled = true ∧
      r.next_run_at ≤ now ∧
      findSchedule (schedulerTick hook uuid now schedules) r.schedule_id =
        some (advanceSchedule now
          (match hook j with
           | .created rid => rid
           | _ => "skipped-" ++ uuid j) r) := by
  -- the due list's schedule ids are distinct
  have hik : ∀ (l : List ScanJob), l = (schedules.filter
      (fun r => r.enabled && decide (r.next_run_at ≤ now))).map scheduleToJob →
      (l.map (fun k => k.schedule_id)).Nodup := by
    intro l hl
    subst hl
    rw [List.map_map]
    have hsub : ((schedules.filter
        (fun r => r.enabled && decide (r.next_run_at ≤ now))).map
          (fun r => r.schedule_id)).Sublist
        (schedules.map (fun r => r.schedule_id)) :=
      (List.filter_sublist schedules).map (fun r => r.schedule_id)
    exact hsub.nodup hnodup
  have hperm := sortByNext_perm ((schedules.filter
      (fun r => r.enabled && decide (r.next_run_at ≤ now))).map scheduleToJob)
  have hdueids : ((getDueJobs now schedules).map (fun k => k.schedule_id)).Nodup := by
    unfold getDueJobs
    exact ((hperm.map (fun k => k.schedule_id)).nodup_iff).mpr (hik _ rfl)
  have hdedupids : ((dedupByBroker [] (getDueJobs now schedules)).map
      (fun k => k.schedule_id)).Nodup :=
    ((dedupByBroker_sublist _ []).map (fun k => k.schedule_id)).nodup hdueids
  -- the surviving job comes from a due enabled schedule row
  have hjdue : j ∈ getDueJobs now schedules :=
    (dedupByBroker_sublist _ []).mem hj
  have hjfilter : j ∈ (schedules.filter
      (fun r => r.enabled && decide (r.next_run_at ≤ now))).map scheduleToJob :=
    hperm.mem_iff.mp hjdue
  rw [List.mem_map] at hjfilter
  obtain ⟨r, hrfilter, hrj⟩ := hjfilter
  have hrmem := List.mem_of_mem_filter hrfilter
  have hrcond := List.of_mem_filter hrfilter
  simp only [Bool.and_eq_true, decide_eq_true_eq] at hrcond
  refine ⟨r, hrmem, hrj, hrcond.1, hrcond.2, ?_⟩
  -- split the deduplicated job list around j
  obtain ⟨pre, post, hsplit⟩ := List.append_of_mem hj
  unfold schedulerTick
  rw [hsplit]
  rw [hsplit, List.map_append, List.map_cons] at hdedupids
  have hprepost := List.nodup_append.mp hdedupids
  have hpre : ∀ k ∈ pre, k.schedule_id ≠ j.schedule_id := by
    intro k hk hcontra
    have hjid : j.schedule_id ∈ (j :: post).map (fun x => x.schedule_id) := by simp
    exact hprepost.2.2 (hcontra ▸ List.mem_map_of_mem (fun x => x.schedule_id) hk) hjid
  have hpost : ∀ k ∈ post, k.schedule_id ≠ j.schedule_id := by
    intro k hk hcontra
    have hnodup' := hprepost.2.1
    rw [List.nodup_cons] at hnodup'
    exact hnodup'.1 (hcontra ▸ List.mem_map_of_mem (fun x => x.schedule_id) hk)
  have hrid : r.schedule_id = j.schedule_id := by rw [← hrj]; rfl
  rw [List.foldl_append, List.foldl_cons]
  rw [findSchedule_untouched hook uuid now r.schedule_id post _
    (fun k hk => by rw [hrid]; exact hpost k hk)]
  have hfold : findSchedule (pre.foldl (stepJob hook uuid now) schedules)
      r.schedule_id = some r := by
    rw [findSchedule_untouched hook uuid now r.schedule_id pre schedules
      (fun k hk => by rw [hrid]; exact hpre k hk)]
    exact findSchedule_of_nodup r schedules hnodup hrmem
  cases hhook : hook j with
  | raised m => exact absurd hhook (hnoraise m)
  | created rid =>
    have hstep : stepJob hook uuid now (pre.foldl (stepJob hook uuid now) schedules) j =
        markStarted now (pre.foldl (stepJob hook uuid now) schedules) j.schedule_id rid := by
      unfold stepJob; rw [hhook]
    rw [hstep, findSchedule_markStarted, ← hrid, hfold]
    simp
  | noRun =>
    have hstep : stepJob hook uuid now (pre.foldl (stepJob hook uuid now) schedules) j =
        markStarted now (pre.foldl (stepJob hook uuid now) schedules) j.schedule_id
          ("skipped-" ++ uuid j) := by
      unfold stepJob; rw [hhook]
    rw [hstep, findSchedule_markStarted, ← hrid, hfold]
    simp

/-- Witness for `c9_survivor_advanced_unless_raise`: a single due
schedule whose hook returns run id `r-1` is advanced with
`last_run_id = r-1`, `last_run_at = 5`, `next_run_at = 35`. -/
theorem c9_survivor_advanced_witness :
    ∃ r ∈ [ScanSchedule.mk "s1" "spokeo" "p1" "discovery" 0 none none 30 true 0],
      scheduleToJob r = scheduleToJob
          (ScanSchedule.mk "s1" "spokeo" "p1" "discovery" 0 none none 30 true 0) ∧
      r.enabled = true ∧ r.next_run_at ≤ 5 ∧
      findSchedule (schedulerTick (fun _ => .created "r-1") (fun _ => "u0") 5
          [ScanSchedule.mk "s1" "spokeo" "p1" "discovery" 0 none none 30 true 0])
          r.schedule_id =
        some (advanceSchedule 5
          (match (fun (_ : ScanJob) => HookResult.created "r-1")
              (scheduleToJob
                (ScanSchedule.mk "s1" "spokeo" "p1" "discovery" 0 none none 30 true 0)) with
           | .created rid => rid
           | _ => "skipped-" ++ "u0") r) := by
  exact c9_survivor_advanced_unless_raise (fun _ => .created "r-1") (fun _ => "u0") 5
    [ScanSchedule.mk "s1" "spokeo" "p1" "discovery" 0 none none 30 true 0]
    (by decide)
    (scheduleToJob (ScanSchedule.mk "s1" "spokeo" "p1" "discovery" 0 none none 30 true 0))
    (by decide) (fun msg h => by simp at h)

/-! ## Runner per-task loop — `engine/runner.py`

The body of `Runner._execute_run`'s `for index, task in enumerate(plan.tasks)`
loop, together with the surrounding `try/except` that marks the run
failed with `TASK_EXECUTION_FAILED` on any raised exception.  The
embedding makes the observable effects explicit: the run row, the task
rows, the approval rows, the in-memory `state` map, the persisted
artifacts and the log of dispatcher invocations.  `execute_task` under
the retry policy is abstracted as a `handler` returning the output or
the raised exception's message; lease renewal and the wall-clock check
at the top of each iteration are the `renewOk` / `timedOut` inputs;
fresh uuid4 values are the `newTaskRunId` / `newApprovalId` inputs. -/

/-- `SIDE_EFFECT_TYPES` from `engine/runner.py`. -/
def SIDE_EFFECT_TYPES : List String :=
  ["form.submit", "email.send", "email.click_verify", "broker.update_status"]

/-- `HTTP_SAFE_METHODS` from `engine/runner.py`. -/
def HTTP_SAFE_METHODS : List String := ["GET", "HEAD", "OPTIONS"]

/-- `Runner._task_has_side_effect`: the four side-effect types, plus
`http.request` whose `method` input (default `GET`, upper-cased) is not a
safe verb. -/
def taskHasSideEffect (task : PlanTask) : Bool :=
  if SIDE_EFFECT_TYPES.contains task.type then true
  else if task.type == "http.request" then
    !(HTTP_SAFE_METHODS.contains ((dictGet task.input "method").getD "GET").toUpper)
  else false

/-- A row of the `runs` table. -/
structure RunRow where
  run_id : String
  plan_id : String
  plan_hash : String
  status : String
  requested_by : Option String := none
  idempotency_key : Option String := none
  claimed_by : Option String := none
  claim_expires_at : Option Int := none
  started_at : Option Int := none
  finished_at : Option Int := none
  params_json : List (String × String) := []
  error_code : Option String := none
  error_message : Option String := none
  created_at : Int := 0
deriving DecidableEq, Repr

/-- A row of the `run_tasks` table (`RunTask` in `db/models.py`). -/
structure RunTask where
  task_run_id : String
  run_id : String
  task_id : String
  task_index : Nat
  task_name : String
  task_type : String
  status : String
  attempt : Nat
  max_attempts : Nat
  idempotent : Bool
  requires_approval : Bool
  input_json : List (String × String)
  output_json : Option String := none
  started_at : Option Int := none
  finished_at : Option Int := none
deriving DecidableEq, Repr

/-- The `preview_json` recorded on a created approval. -/
structure ApprovalPreview where
  task_id : String
  task_name : String
  task_type : String
  input : List (String × String)
deriving DecidableEq, Repr

/-- A row of the `run_approvals` table (`RunApproval`). -/
structure RunApproval where
  approval_id : String
  run_id : String
  task_id : String
  status : String
  prompt : String
  preview_json : ApprovalPreview
deriving DecidableEq, Repr

/-- The observable execution state threaded through the loop body: the
claimed run, its task and approval rows, the in-memory `state` dict, the
artifacts persisted so far (kind, task id) and the dispatcher log. -/
structure EngineState where
  run : RunRow
  taskRows : List RunTask
  approvals : List RunApproval
  state : List (String × String)
  artifacts : List (String × String)
  handlerCalls : List String
deriving DecidableEq, Repr

/-- `Runner._task_row`: the unique task row for `(run_id, task_id)`. -/
def findTaskRow (rows : List RunTask) (runId taskId : String) : Option RunTask :=
  rows.find? (fun r => r.run_id == runId && r.task_id == taskId)

/-- The approval lookup of `Runner._ensure_approval`. -/
def findApprovalRow (approvals : List RunApproval) (runId taskId : String) :
    Option RunApproval :=
  approvals.find? (fun a => a.run_id == runId && a.task_id == taskId)

/-- Python dict assignment `state[k] = v`; `dictGet` reads the newest
binding. -/
def stateInsert (s : List (String × String)) (k v : String) : List (String × String) :=
  (k, v) :: s

/-- The `except Exception` block of `_execute_run`: mark the run failed,
stamp the error, clear the claim. -/
def failRunWith (st : EngineState) (now : Int) (code msg : String) : EngineState :=
  { st with run :=
      { st.run with
        status := "failed", error_code := some code,
        error_message := some msg, finished_at := some now,
        claimed_by := none, claim_expires_at := none } }

/-- `Runner._mark_run_timeout`. -/
def markRunTimeout (st : EngineState) (now : Int) (run_timeout_ms : Nat) : EngineState :=
  { st with run :=
      { st.run with
        status := "failed",
        error_code := some "RUN_TIMEOUT",
        error_message := some ("Run exceeded wall-clock timeout of " ++
          toString run_timeout_ms ++ "ms"),
        finished_at := some now, claimed_by := none, claim_expires_at := none } }

/-- The first entry of `depends_on` failing the dependency check (no task
row, or its status is not `succeeded`); the loop raises on it. -/
def firstUnsatisfiedDep (rows : List RunTask) (runId : String)
    (deps : List String) : Option String :=
  deps.find? (fun dep =>
    match findTaskRow rows runId dep with
    | some r => !(r.status == "succeeded")
    | none => true)

/-- The effective approval prompt:
`(task.approval or {}).get("prompt") or f"Approve side effect task ..."`. -/
def approvalPrompt (task : PlanTask) : String :=
  let fallback := "Approve side effect task '" ++ task.name ++ "' (" ++ task.type ++ ")"
  match task.approval with
  | some d =>
    match dictGet d "prompt" with
    | some s => if s = "" then fallback else s
    | none => fallback
  | none => fallback

/-- `(task.output or {}).get("artifact_kind") or task.type`. -/
def artifactKind (task : PlanTask) : String :=
  match task.output with
  | some d =>
    match dictGet d "artifact_kind" with
    | some k => if k = "" then task.type else k
    | none => task.type
  | none => task.type

/-- `task.output and task.output.get("save_as")` (falsy values alias
nothing). -/
def saveAs (task : PlanTask) : Option String :=
  match task.output with
  | some d =>
    match dictGet d "save_as" with
    | some s => if s = "" then none else some s
    | none => none
  | none => none

/-- Replace the task row with primary key `task_run_id`. -/
def updateTaskRow (rows : List RunTask) (task_run_id : String) (row' : RunTask) :
    List RunTask :=
  rows.map (fun r => if r.task_run_id = task_run_id then row' else r)

/-- Lines 270–327 of `_execute_run`: insert a `running` task row if
absent, dispatch the task to `execute_task` (already wrapped in the retry
policy), and on success persist the succeeded row, extend the state map
(id and `save_as` alias) and persist the output artifact; a raised
exception lands in the `except` block. -/
def dispatchTask (handler : PlanTask → Except String String) (now : Int)
    (newTaskRunId : String) (requiresApproval : Bool) (index : Nat)
    (task : PlanTask) (row? : Option RunTask) (st : EngineState) :
    EngineState × Bool :=
  let rowAndRows : RunTask × List RunTask :=
    match row? with
    | some r => (r, st.taskRows)
    | none =>
      let r : RunTask :=
        { task_run_id := newTaskRunId, run_id := st.run.run_id, task_id := task.id,
          task_index := index, task_name := task.name, task_type := task.type,
          status := "running", attempt := 0, max_attempts := task.max_attempts,
          idempotent := task.idempotent, requires_approval := requiresApproval,
          input_json := task.input }
      (r, st.taskRows ++ [r])
  let row := rowAndRows.1
  let st1 :=
    { st with
      taskRows := rowAndRows.2,
      handlerCalls := st.handlerCalls ++ [task.id] }
  match handler task with
  | .error msg => (failRunWith st1 now "TASK_EXECUTION_FAILED" msg, false)
  | .ok output =>
    let row' :=
      { row with
        status := "succeeded", attempt := row.attempt + 1,
        started_at := some (row.started_at.getD now), finished_at := some now,
        output_json := some output }
    let st2 := { st1 with taskRows := updateTaskRow st1.taskRows row.task_run_id row' }
    let st3 := { st2 with state := stateInsert st2.state task.id output }
    let st4 :=
      match saveAs task with
      | some aliasName => { st3 with state := stateInsert st3.state aliasName output }
      | none => st3
    ({ st4 with artifacts := st4.artifacts ++ [(artifactKind task, task.id)] }, true)

/-- The loop body after the skip check: dependency check, effective
approval requirement, approval gate, then dispatch. -/
def execStepAfterSkip (policy : Bool) (handler : PlanTask → Except String String)
    (now : Int) (newTaskRunId newApprovalId : String) (index : Nat)
    (task : PlanTask) (row? : Option RunTask) (st : EngineState) :
    EngineState × Bool :=
  match firstUnsatisfiedDep st.taskRows st.run.run_id task.depends_on with
  | some dep =>
    -- `raise RuntimeError(f"Dependency not satisfied for {task.id}: {dep}")`
    (failRunWith st now "TASK_EXECUTION_FAILED"
      ("Dependency not satisfied for " ++ task.id ++ ": " ++ dep), false)
  | none =>
    let requiresApproval := task.requires_approval || (policy && taskHasSideEffect task)
    if requiresApproval then
      let approvalAndSt : RunApproval × EngineState :=
        match findApprovalRow st.approvals st.run.run_id task.id with
        | some a => (a, st)
        | none =>
          let a : RunApproval :=
            { approval_id := newApprovalId, run_id := st.run.run_id,
              task_id := task.id, status := "pending",
              prompt := approvalPrompt task,
              preview_json := ⟨task.id, task.name, task.type, task.input⟩ }
          (a, { st with approvals := st.approvals ++ [a] })
      let approval := approvalAndSt.1
      let st1 := approvalAndSt.2
      if approval.status = "pending" then
        ({ st1 with run :=
            { st1.run with
              status := "blocked_for_approval",
              claimed_by := none, claim_expires_at := none } }, false)
      else if approval.status = "denied" then
        ({ st1 with run :=
            { st1.run with
              status := "failed",
              error_code := some "APPROVAL_DENIED",
              error_message := some ("Approval denied for task " ++ task.id),
              finished_at := some now,
              claimed_by := none, claim_expires_at := none } }, false)
      else dispatchTask handler now newTaskRunId requiresApproval index task row? st1
    else dispatchTask handler now newTaskRunId requiresApproval index task row? st

/-- One iteration of the per-task loop of `_execute_run` (runner.py lines
216–327 plus the enclosing `except`).  Returns the updated state and
whether the loop continues to the next task (`false` models `return` or
the raise landing in `except`).  `policy` is
`config.policy.side_effects_require_approval`; `renewOk` is the outcome
of `_renew_claim`, `timedOut` of `_run_timed_out`. -/
def execStep (policy : Bool) (handler : PlanTask → Except String String)
    (now : Int) (run_timeout_ms : Nat) (renewOk timedOut : Bool)
    (newTaskRunId newApprovalId : String) (index : Nat) (task : PlanTask)
    (st : EngineState) : EngineState × Bool :=
  if !renewOk then
    -- `raise RuntimeError("run claim lost during execution")`, caught below
    (failRunWith st now "TASK_EXECUTION_FAILED" "run claim lost during execution", false)
  else if timedOut then
    (markRunTimeout st now run_timeout_ms, false)
  else
    match findTaskRow st.taskRows st.run.run_id task.id with
    | some row =>
      if row.status = "succeeded" then
        ({ st with state :=
            match row.output_json with
            | some out => stateInsert st.state task.id out
            | none => st.state }, true)
      else execStepAfterSkip policy handler now newTaskRunId newApprovalId
        index task (some row) st
    | none => execStepAfterSkip policy handler now newTaskRunId newApprovalId
        index task none st

/-- **C1.**  When the task row for `(run, task id)` is already
`succeeded`, the loop iteration performs exactly the skip: the persisted
`output_json` (when present) is loaded into the in-memory state map and
the loop moves on to the next task; the dispatcher is not invoked, the
task rows are untouched (the instance stays `succeeded` — it never
re-enters `running`), and nothing else changes. -/
theorem c1_succeeded_task_not_reexecuted (policy : Bool)
    (handler : PlanTask → Except String String) (now : Int) (run_timeout_ms : Nat)
    (renewOk timedOut : Bool) (tid aid : String) (index : Nat) (task : PlanTask)
    (st : EngineState) (row : RunTask)
    (hrenew : renewOk = true) (htime : timedOut = false)
    (hrow : findTaskRow st.taskRows st.run.run_id task.id = some row)
    (hsucc : row.status = "succeeded") :
    execStep policy handler now run_timeout_ms renewOk timedOut tid aid index task st =
      ({ st with state :=
          match row.output_json with
          | some out => stateInsert st.state task.id out
          | none => st.state }, true) := by
  subst hrenew; subst htime
  unfold execStep
  rw [hrow]
  simp [hsucc]

/-- Task and state used to witness the skip of a succeeded task. -/
def c1Task : PlanTask :=
  { id := "fetch", name := "Fetch page", type := "http.request" }

/-- The succeeded task row replayed by the witness. -/
def c1Row : RunTask :=
  { task_run_id := "t-1", run_id := "r-1", task_id := "fetch", task_index := 0,
    task_name := "Fetch page", task_type := "http.request", status := "succeeded",
    attempt := 1, max_attempts := 3, idempotent := true, requires_approval := false,
    input_json := [], output_json := some "page-html" }

/-- Engine state holding the succeeded row. -/
def c1St : EngineState :=
  { run := { run_id := "r-1", plan_id := "demo", plan_hash := "h", status := "running" },
    taskRows := [c1Row], approvals := [], state := [], artifacts := [],
    handlerCalls := [] }

/-- Witness for `c1_succeeded_task_not_reexecuted`: a later pass over a
run whose `fetch` task already succeeded loads `page-html` into the state
map, keeps the dispatcher log empty and continues. -/
theorem c1_succeeded_task_witness :
    execStep true (fun _ => Except.ok "fresh") 7 1000 true false "t-new" "ap-new"
        0 c1Task c1St =
      ({ c1St with state :=
          match c1Row.output_json with
          | some out => stateInsert c1St.state c1Task.id out
          | none => c1St.state }, true) :=
  c1_succeeded_task_not_reexecuted true (fun _ => Except.ok "fresh") 7 1000
    true false "t-new" "ap-new" 0 c1Task c1St c1Row rfl rfl (by decide) rfl

/-- **C2.**  With `side_effects_require_approval` set and a side-effect
task (one of the four side-effect types, or `http.request` with a
non-safe method), on the nominal path (claim renewed, not timed out,
task not already succeeded, dependencies satisfied): if the `(run, task)`
approval is pending or absent (it is then created pending), the run
transitions to `blocked_for_approval` with the claim cleared and the
iteration returns without dispatching; if it is denied, the run fails
with `APPROVAL_DENIED` without dispatching; and the handler is dispatched
only when an approval row exists in status `approved`. -/
theorem c2_side_effect_approval_gate (policy : Bool)
    (handler : PlanTask → Except String String) (now : Int) (run_timeout_ms : Nat)
    (renewOk timedOut : Bool) (tid aid : String) (index : Nat) (task : PlanTask)
    (st : EngineState)
    (hpolicy : policy = true) (hside : taskHasSideEffect task = true)
    (hrenew : renewOk = true) (htime : timedOut = false)
    (hnotsucc : ∀ row, findTaskRow st.taskRows st.run.run_id task.id = some row →
      row.status ≠ "succeeded")
    (hdeps : firstUnsatisfiedDep st.taskRows st.run.run_id task.depends_on = none)
    (hwf : ∀ a ∈ st.approvals,
      a.status = "pending" ∨ a.status = "approved" ∨ a.status = "denied") :
    ((findApprovalRow st.approvals st.run.run_id task.id = none ∨
      (∃ a, findApprovalRow st.approvals st.run.run_id task.id = some a ∧
        a.status = "pending")) →
      (execStep policy handler now run_timeout_ms renewOk timedOut tid aid index
          task st).2 = false ∧
      (execStep policy handler now run_timeout_ms renewOk timedOut tid aid index
          task st).1.run.status = "blocked_for_approval" ∧
      (execStep policy handler now run_timeout_ms renewOk timedOut tid aid index
          task st).1.run.claimed_by = none ∧
      (execStep policy handler now run_timeout_ms renewOk timedOut tid aid index
          task st).1.run.claim_expires_at = none ∧
      (execStep policy handler now run_timeout_ms renewOk timedOut tid aid index
          task st).1.handlerCalls = st.handlerCalls) ∧
    ((∃ a, findApprovalRow st.approvals st.run.run_id task.id = some a ∧
        a.status = "denied") →
      (execStep policy handler now run_timeout_ms renewOk timedOut tid aid index
          task st).2 = false ∧
      (execStep policy handler now run_timeout_ms renewOk timedOut tid aid index
          task st).1.run.status = "failed" ∧
      (execStep policy handler now run_timeout_ms renewOk timedOut tid aid index
          task st).1.run.error_code = some "APPROVAL_DENIED" ∧
      (execStep policy handler now run_timeout_ms renewOk timedOut tid aid index
          task st).1.handlerCalls = st.handlerCalls) ∧
    ((execStep policy handler now run_timeout_ms renewOk timedOut tid aid index
        task st).1.handlerCalls ≠ st.handlerCalls →
      ∃ a, findApprovalRow st.approvals st.run.run_id task.id = some a ∧
        a.status = "approved") := by
  subst hpolicy; subst hrenew; subst htime
  have hstep : execStep true handler now run_timeout_ms true false tid aid index task st =
      execStepAfterSkip true handler now tid aid index task
        (findTaskRow st.taskRows st.run.run_id task.id) st := by
    unfold execStep
    cases hfind : findTaskRow st.taskRows st.run.run_id task.id with
    | none => simp
    | some row => simp [hnotsucc row hfind]
  rw [hstep]
  unfold execStepAfterSkip
  rw [hdeps]
  simp only [hside, Bool.and_true, Bool.or_true, if_true]
  cases hap : findApprovalRow st.approvals st.run.run_id task.id with
  | none =>
    refine ⟨fun _ => ?_, fun hden => ?_, fun hcall => ?_⟩
    · simp
    · obtain ⟨a, ha, _⟩ := hden
      exact absurd ha (by simp)
    · exfalso
      apply hcall
      simp
  | some a =>
    have hmem : a ∈ st.approvals := by
      have := List.mem_of_find?_eq_some hap
      exact this
    rcases hwf a hmem with hstat | hstat | hstat
    · -- existing pending approval: blocked
      refine ⟨fun _ => ?_, fun hden => ?_, fun hcall => ?_⟩
      · simp [hstat]
      · obtain ⟨a', ha', hden'⟩ := hden
        have haa : a' = a := (Option.some.inj ha').symm
        rw [haa, hstat] at hden'
        exact absurd hden' (by decide)
      · exfalso
        apply hcall
        simp [hstat]
    · -- approved: the gate falls through to dispatch
      refine ⟨fun hpend => ?_, fun hden => ?_, fun _ => ⟨a, rfl, hstat⟩⟩
      · rcases hpend with hnone | ⟨a', ha', hpend'⟩
        · exact absurd hnone (by simp)
        · have haa : a' = a := (Option.some.inj ha').symm
          rw [haa, hstat] at hpend'
          exact absurd hpend' (by decide)
      · obtain ⟨a', ha', hden'⟩ := hden
        have haa : a' = a := (Option.some.inj ha').symm
        rw [haa, hstat] at hden'
        exact absurd hden' (by decide)
    · -- denied: APPROVAL_DENIED
      refine ⟨fun hpend => ?_, fun _ => ?_, fun hcall => ?_⟩
      · rcases hpend with hnone | ⟨a', ha', hpend'⟩
        · exact absurd hnone (by simp)
        · have haa : a' = a := (Option.some.inj ha').symm
          rw [haa, hstat] at hpend'
          exact absurd hpend' (by decide)
      · simp [hstat]
      · exfalso
        apply hcall
        simp [hstat]

/-- The gated side-effect task used by the approval witnesses. -/
def c2Task : PlanTask :=
  { id := "submit", name := "Submit opt-out", type := "form.submit" }

/-- A claimed running run with no rows at all: first encounter of the
side-effect task. -/
def c2St : EngineState :=
  { run := { run_id := "r-2", plan_id := "demo", plan_hash := "h", status := "running",
             claimed_by := some "runner-1", claim_expires_at := some 60 },
    taskRows := [], approvals := [], state := [], artifacts := [],
    handlerCalls := [] }

/-- Witness for `c2_side_effect_approval_gate`: the first tick reaching a
`form.submit` task under the policy creates a pending approval, blocks
the run, clears the claim and does not dispatch. -/
theorem c2_side_effect_approval_witness :
    (execStep true (fun _ => Except.ok "done") 0 1000 true false "t-2" "ap-2"
        0 c2Task c2St).2 = false ∧
    (execStep true (fun _ => Except.ok "done") 0 1000 true false "t-2" "ap-2"
        0 c2Task c2St).1.run.status = "blocked_for_approval" ∧
    (execStep true (fun _ => Except.ok "done") 0 1000 true false "t-2" "ap-2"
        0 c2Task c2St).1.run.claimed_by = none ∧
    (execStep true (fun _ => Except.ok "done") 0 1000 true false "t-2" "ap-2"
        0 c2Task c2St).1.run.claim_expires_at = none ∧
    (execStep true (fun _ => Except.ok "done") 0 1000 true false "t-2" "ap-2"
        0 c2Task c2St).1.handlerCalls = c2St.handlerCalls := by
  have h := c2_side_effect_approval_gate true (fun _ => Except.ok "done") 0 1000
    true false "t-2" "ap-2" 0 c2Task c2St rfl (by decide) rfl rfl
    (fun row hrow => Option.noConfusion hrow)
    (by decide)
    (fun a ha => absurd ha (List.not_mem_nil a))
  exact h.1 (Or.inl (by decide))

/-- **C4 (amended).**  A task whose `depends_on` contains an entry with no
succeeded task row makes the iteration raise
`RuntimeError(f"Dependency not satisfied for {task.id}: {dep}")`, which
the generic `except` block records: the run fails with
`error_code = TASK_EXECUTION_FAILED` (not `DEP_UNSATISFIED`, which
appears nowhere in the source), the message naming the task and the
first unsatisfied dependency, the claim cleared, and no dispatch. -/
theorem c4_dep_unsatisfied_fails_run (policy : Bool)
    (handler : PlanTask → Except String String) (now : Int) (run_timeout_ms : Nat)
    (renewOk timedOut : Bool) (tid aid : String) (index : Nat) (task : PlanTask)
    (st : EngineState) (dep : String)
    (hrenew : renewOk = true) (htime : timedOut = false)
    (hnotsucc : ∀ row, findTaskRow st.taskRows st.run.run_id task.id = some row →
      row.status ≠ "succeeded")
    (hdep : firstUnsatisfiedDep st.taskRows st.run.run_id task.depends_on = some dep) :
    execStep policy handler now run_timeout_ms renewOk timedOut tid aid index task st =
      (failRunWith st now "TASK_EXECUTION_FAILED"
        ("Dependency not satisfied for " ++ task.id ++ ": " ++ dep), false) := by
  subst hrenew; subst htime
  have hstep : execStep policy handler now run_timeout_ms true false tid aid index task st =
      execStepAfterSkip policy handler now tid aid index task
        (findTaskRow st.taskRows st.run.run_id task.id) st := by
    unfold execStep
    cases hfind : findTaskRow st.taskRows st.run.run_id task.id with
    | none => simp
    | some row => simp [hnotsucc row hfind]
  rw [hstep]
  unfold execStepAfterSkip
  rw [hdep]

/-- The task whose dependency is unsatisfied in the C4 scenario. -/
def c4Task : PlanTask :=
  { id := "parse", name := "Parse page", type := "scrape.static",
    depends_on := ["fetch"] }

/-- A running run with no task rows: `parse`'s dependency `fetch` has no
succeeded task instance. -/
def c4St : EngineState :=
  { run := { run_id := "r-4", plan_id := "demo", plan_hash := "h", status := "running" },
    taskRows := [], approvals := [], state := [], artifacts := [],
    handlerCalls := [] }

/-- **C4 (counterexample).**  On the concrete unsatisfied-dependency run,
the recorded `error_code` is `TASK_EXECUTION_FAILED`, not the
`DEP_UNSATISFIED` the claim requires (while the run does fail and the
handler is never invoked). -/
theorem c4_error_code_not_dep_unsatisfied :
    (execStep true (fun _ => Except.ok "out") 0 1000 true false "t-4" "ap-4"
        0 c4Task c4St).1.run.status = "failed" ∧
    (execStep true (fun _ => Except.ok "out") 0 1000 true false "t-4" "ap-4"
        0 c4Task c4St).1.run.error_code = some "TASK_EXECUTION_FAILED" ∧
    (execStep true (fun _ => Except.ok "out") 0 1000 true false "t-4" "ap-4"
        0 c4Task c4St).1.run.error_code ≠ some "DEP_UNSATISFIED" ∧
    (execStep true (fun _ => Except.ok "out") 0 1000 true false "t-4" "ap-4"
        0 c4Task c4St).1.handlerCalls = [] := by
  refine ⟨?_, ?_, ?_, ?_⟩ <;> decide

/-- Witness for `c4_dep_unsatisfied_fails_run` at the concrete scenario:
the iteration lands in the `except` block with the dependency message. -/
theorem c4_dep_unsatisfied_witness :
    execStep true (fun _ => Except.ok "out") 0 1000 true false "t-4" "ap-4"
        0 c4Task c4St =
      (failRunWith c4St 0 "TASK_EXECUTION_FAILED"
        ("Dependency not satisfied for " ++ c4Task.id ++ ": " ++ "fetch"), false) :=
  c4_dep_unsatisfied_fails_run true (fun _ => Except.ok "out") 0 1000 true false
    "t-4" "ap-4" 0 c4Task c4St "fetch" rfl rfl
    (fun row hrow => Option.noConfusion hrow) (by decide)

/-! ## Run launch — `api.py` `start_run` and `engine/idempotency.py`

`POST /v1/runs`: bearer auth, the idempotency-key policy check, plan
loading and params validation, the idempotent-run gate, and the insert
guarded by the store's unique constraint on `idempotency_key`.  The
store read by the gate's lookup (`snapshot`) and the store the commit
runs against (`store`) are separate arguments: they coincide for a
sequential launch and differ only when a concurrent launch committed in
between — the embedding of the read-then-insert race. -/

/-- The `StartRunRequest` body. -/
structure StartRunRequest where
  plan_id : String
  params : List (String × String) := []
  requested_by : Option String := none
  idempotency_key : Option String := none
deriving DecidableEq, Repr

/-- Python truthiness of the optional `idempotency_key` string
(`not req.idempotency_key` is the negation of this). -/
def keyTruthy : Option String → Bool
  | some s => !(s == "")
  | none => false

/-- `find_run_by_idempotency` (`engine/idempotency.py`). -/
def findRunByIdempotency (runs : List RunRow) (key : String) : Option RunRow :=
  runs.find? (fun r => r.idempotency_key == some key)

/-- Response of the launch endpoint: the returned run status, an
`HTTPException`, or an uncaught exception (e.g. `load_plan` raising). -/
inductive LaunchResponse where
  | accepted (run : RunRow)
  | clientError (code : Nat) (detail : String)
  | serverError (msg : String)
deriving DecidableEq, Repr

/-- The `Run` row built by `start_run` before the commit. -/
def newRunRow (req : StartRunRequest) (newRunId planHash : String) (now : Int) :
    RunRow :=
  { run_id := newRunId, plan_id := req.plan_id, plan_hash := planHash,
    status := "queued", requested_by := req.requested_by,
    idempotency_key := req.idempotency_key, params_json := req.params,
    created_at := now }

/-- The commit of the new run: the unique constraint on
`idempotency_key` is the arbiter — the insert raises `IntegrityError`
iff a run with the same non-null key is already committed; the handler
then rolls back, rereads by key (when the key is truthy) and returns the
winner, else answers `409 run conflict`. -/
def commitNewRun (req : StartRunRequest) (run : RunRow) (store : List RunRow) :
    LaunchResponse × List RunRow :=
  match req.idempotency_key with
  | some key =>
    if (findRunByIdempotency store key).isSome then
      if key == "" then (.clientError 409 "run conflict", store)
      else
        match findRunByIdempotency store key with
        | some existing => (.accepted existing, store)
        | none => (.clientError 409 "run conflict", store)
    else (.accepted run, store ++ [run])
  | none => (.accepted run, store ++ [run])

/-- `start_run` (api.py lines 161–203). -/
def startRun (requireKey authOk : Bool) (doc : Option ErasurePlan)
    (hashFn : ErasurePlan → String) (paramsOk : Bool) (newRunId : String)
    (now : Int) (req : StartRunRequest) (snapshot store : List RunRow) :
    LaunchResponse × List RunRow :=
  if !authOk then (.clientError 401 "missing or invalid bearer token", store)
  else if requireKey && !(keyTruthy req.idempotency_key) then
    (.clientError 400 "idempotency_key is required by policy", store)
  else
    match loadPlan doc with
    | .error e => (.serverError e, store)
    | .ok plan =>
      if !paramsOk then (.clientError 400 "params validation failed", store)
      else
        if keyTruthy req.idempotency_key then
          match findRunByIdempotency snapshot (req.idempotency_key.getD "") with
          | some existing => (.accepted existing, store)
          | none => commitNewRun req (newRunRow req newRunId (hashFn plan) now) store
        else commitNewRun req (newRunRow req newRunId (hashFn plan) now) store

/-- **C10.**  When `policy.require_idempotency_key` is set, a launch whose
`idempotency_key` is missing or empty is answered `400` with the store
untouched.  The conclusion holds for every `doc` and `paramsOk`, i.e.
before the plan is loaded and before params validation, and the returned
store is the input store: no `Run` row is persisted. -/
theorem c10_missing_key_rejected_early (requireKey authOk : Bool)
    (doc : Option ErasurePlan) (hashFn : ErasurePlan → String) (paramsOk : Bool)
    (newRunId : String) (now : Int) (req : StartRunRequest)
    (snapshot store : List RunRow)
    (hauth : authOk = true) (hreq : requireKey = true)
    (hkey : keyTruthy req.idempotency_key = false) :
    startRun requireKey authOk doc hashFn paramsOk newRunId now req snapshot store =
      (.clientError 400 "idempotency_key is required by policy", store) := by
  subst hauth; subst hreq
  unfold startRun
  simp [hkey]

/-- Witness for `c10_missing_key_rejected_early`: a launch without a key
under the policy is rejected with 400 and an unchanged (empty) store. -/
theorem c10_missing_key_witness :
    startRun true true none (fun _ => "h") true "r-new" 0
        { plan_id := "demo" } [] [] =
      (.clientError 400 "idempotency_key is required by policy", []) :=
  c10_missing_key_rejected_early true true none (fun _ => "h") true "r-new" 0
    { plan_id := "demo" } [] [] rfl rfl (by decide)

/-- **C5.**  A launch carrying an `idempotency_key` for which a Run
already exists creates no new row and returns that Run with the store
unchanged; and under the read-then-insert race — the loser's lookup
(`snapshot`) missed the key but the winner's row is committed in the
store — the loser's insert hits the unique constraint, rereads and
returns the winner, again leaving the store unchanged, so the two
launches yield exactly one Run. -/
theorem c5_idempotent_launch (requireKey authOk : Bool)
    (doc : Option ErasurePlan) (hashFn : ErasurePlan → String) (paramsOk : Bool)
    (newRunId : String) (now : Int) (req : StartRunRequest)
    (snapshot store : List RunRow) (k : String) (plan : ErasurePlan)
    (hauth : authOk = true) (hkey : req.idempotency_key = some k) (hk : k ≠ "")
    (hload : loadPlan doc = .ok plan) (hparams : paramsOk = true) :
    (∀ existing, findRunByIdempotency snapshot k = some existing →
      startRun requireKey authOk doc hashFn paramsOk newRunId now req snapshot store =
        (.accepted existing, store)) ∧
    (findRunByIdempotency snapshot k = none →
      ∀ winner, findRunByIdempotency store k = some winner →
        startRun requireKey authOk doc hashFn paramsOk newRunId now req snapshot store =
          (.accepted winner, store)) := by
  subst hauth; subst hparams
  have htruthy : keyTruthy req.idempotency_key = true := by
    rw [hkey]
    simp [keyTruthy, hk]
  constructor
  · intro existing hfind
    unfold startRun
    rw [hload]
    simp [hkey, keyTruthy, hk, hfind]
  · intro hnone winner hwin
    unfold startRun
    rw [hload]
    simp only [hkey]
    simp [keyTruthy, hk, hnone]
    unfold commitNewRun
    rw [hkey]
    simp [hwin, hk]

/-- The well-formed single-task plan launched by the idempotency
witness. -/
def c5Plan : ErasurePlan :=
  { plan_id := "demo", version := "1.0.0",
    targets := [{ target_id := "site", kind := "website" }],
    tasks := [{ id := "fetch", name := "Fetch page", type := "http.request" }] }

/-- The committed Run owning idempotency key `k1`. -/
def c5Existing : RunRow :=
  { run_id := "r-A", plan_id := "demo", plan_hash := "h", status := "running",
    idempotency_key := some "k1" }

/-- The relaunch request carrying the same key `k1`. -/
def c5Req : StartRunRequest :=
  { plan_id := "demo", idempotency_key := some "k1" }

/-- Witness for `c5_idempotent_launch`: the sequential relaunch returns
the existing run, and the racing loser (whose lookup saw an empty
snapshot) returns the committed winner; neither adds a row. -/
theorem c5_idempotent_launch_witness :
    startRun true true (some c5Plan) (fun _ => "h") true "r-new" 0 c5Req
        [c5Existing] [c5Existing] = (.accepted c5Existing, [c5Existing]) ∧
    startRun true true (some c5Plan) (fun _ => "h") true "r-new" 0 c5Req
        [] [c5Existing] = (.accepted c5Existing, [c5Existing]) := by
  have hload : loadPlan (some c5Plan) = .ok c5Plan := by
    have hv : validErasurePlan c5Plan = true := by decide
    simp [loadPlan, hv]
  have h1 := c5_idempotent_launch true true (some c5Plan) (fun _ => "h") true
    "r-new" 0 c5Req [c5Existing] [c5Existing] "k1" c5Plan rfl rfl (by decide)
    hload rfl
  have h2 := c5_idempotent_launch true true (some c5Plan) (fun _ => "h") true
    "r-new" 0 c5Req [] [c5Existing] "k1" c5Plan rfl rfl (by decide) hload rfl
  exact ⟨h1.1 c5Existing (by decide), h2.2 (by decide) c5Existing (by decide)⟩

end IdErase
